/- Verification of the artist-identity resolution and incremental-enrichment
pipeline of the music-lyrics analysis repository.  The Python source under
`src/music_lyrics_llm_analysis/scrape/scrape_artist_data.py` and
`src/scripts/scrape/scrape_genius.py` is shallowly embedded below: pandas
row operations become list operations, network calls become oracle
parameters, and the per-row crawl loops become structural recursions that
also record an event trace (collaborator invocations, diagnostics, sleeps). -/
import Mathlib

namespace Music

instance [DecidableEq ε] [DecidableEq α] : DecidableEq (Except ε α) := fun x y =>
  match x, y with
  | .ok a, .ok b =>
    if h : a = b then .isTrue (by rw [h])
    else .isFalse (fun he => h (Except.ok.inj he))
  | .error a, .error b =>
    if h : a = b then .isTrue (by rw [h])
    else .isFalse (fun he => h (Except.error.inj he))
  | .ok _, .error _ => .isFalse (fun he => Except.noConfusion he)
  | .error _, .ok _ => .isFalse (fun he => Except.noConfusion he)

/-! ### Small list helpers (positional row access, point update, counting) -/

/-- Positional lookup in a list, mirroring a pandas positional row index. -/
def nth : List α → Nat → Option α
  | [], _ => none
  | a :: _, 0 => some a
  | _ :: as, n + 1 => nth as n

/-- Update the element at one position, mirroring `df.loc[r, v] = ...`. -/
def listModify (f : α → α) : Nat → List α → List α
  | _, [] => []
  | 0, a :: as => f a :: as
  | n + 1, a :: as => a :: listModify f n as

/-- Count occurrences of an element in a list. -/
def countList [DecidableEq α] (a : α) : List α → Nat
  | [] => 0
  | x :: xs => (if x = a then 1 else 0) + countList a xs

theorem nth_eq_none_iff (l : List α) (i : Nat) : nth l i = none ↔ l.length ≤ i := by
  induction l generalizing i with
  | nil => simp [nth]
  | cons a as ih =>
    cases i with
    | zero => simp [nth]
    | succ n => simp [nth, ih, Nat.succ_le_succ_iff]

theorem nth_eq_some_of_lt {l : List α} {i : Nat} (h : i < l.length) :
    ∃ a, nth l i = some a := by
  cases hn : nth l i with
  | some a => exact ⟨a, rfl⟩
  | none => exact absurd ((nth_eq_none_iff l i).mp hn) (Nat.not_le.mpr h)

theorem lt_of_nth_eq_some {l : List α} {i : Nat} {a : α} (h : nth l i = some a) :
    i < l.length := by
  by_contra hle
  rw [(nth_eq_none_iff l i).mpr (Nat.le_of_not_lt hle)] at h
  exact Option.noConfusion h

theorem nth_map (f : α → β) (l : List α) (i : Nat) :
    nth (l.map f) i = (nth l i).map f := by
  induction l generalizing i with
  | nil => simp [nth]
  | cons a as ih =>
    cases i with
    | zero => simp [nth]
    | succ n => simpa [nth] using ih n

theorem nth_listModify_self (f : α → α) (l : List α) (j : Nat) :
    nth (listModify f j l) j = (nth l j).map f := by
  induction l generalizing j with
  | nil => simp [nth, listModify]
  | cons a as ih =>
    cases j with
    | zero => simp [nth, listModify]
    | succ n => simpa [nth, listModify] using ih n

theorem nth_listModify_ne (f : α → α) (l : List α) {i j : Nat} (h : i ≠ j) :
    nth (listModify f j l) i = nth l i := by
  induction l generalizing i j with
  | nil => simp [listModify]
  | cons a as ih =>
    cases j with
    | zero =>
      cases i with
      | zero => exact absurd rfl h
      | succ n => simp [nth, listModify]
    | succ m =>
      cases i with
      | zero => simp [nth, listModify]
      | succ n => simpa [nth, listModify] using ih (fun hnm => h (by omega))

theorem length_listModify (f : α → α) (l : List α) (j : Nat) :
    (listModify f j l).length = l.length := by
  induction l generalizing j with
  | nil => simp [listModify]
  | cons a as ih =>
    cases j with
    | zero => simp [listModify]
    | succ n => simpa [listModify] using ih n

theorem countList_append [DecidableEq α] (a : α) (l₁ l₂ : List α) :
    countList a (l₁ ++ l₂) = countList a l₁ + countList a l₂ := by
  induction l₁ with
  | nil => simp [countList]
  | cons x xs ih => simp [countList, ih]; omega

theorem countList_pos_of_mem [DecidableEq α] {a : α} {l : List α} (h : a ∈ l) :
    1 ≤ countList a l := by
  induction l with
  | nil => cases h
  | cons x xs ih =>
    rcases List.mem_cons.mp h with h | h
    · simp [countList, h.symm]
    · have := ih h
      simp [countList]
      omega

theorem countList_eq_zero_of_not_mem [DecidableEq α] {a : α} {l : List α} (h : a ∉ l) :
    countList a l = 0 := by
  induction l with
  | nil => rfl
  | cons x xs ih =>
    have hx : x ≠ a := fun he => h (he ▸ List.mem_cons_self x xs)
    have hxs : a ∉ xs := fun hm => h (List.mem_cons_of_mem x hm)
    simp [countList, hx, ih hxs]

theorem countList_eq_one_of_nodup_mem [DecidableEq α] {a : α} {l : List α}
    (hd : l.Nodup) (h : a ∈ l) : countList a l = 1 := by
  induction l with
  | nil => cases h
  | cons x xs ih =>
    rcases List.nodup_cons.mp hd with ⟨hx, hxs⟩
    rcases List.mem_cons.mp h with h | h
    · subst h
      simp [countList, countList_eq_zero_of_not_mem hx]
    · have hxa : x ≠ a := fun he => hx (he ▸ h)
      simp [countList, hxa, ih hxs h]

/-! ### Identity Matcher (`find_musicbrainz_url`, lines 36–75)

The scoring path models the library call
`process.extractOne(artist_name, names, scorer=fuzz.token_sort_ratio,
processor=lambda x: x.lower())`: the processor lower-cases both the query
and every choice, the scorer sorts whitespace tokens of each string and
compares them by normalized indel similarity, and `extractOne` returns the
first choice attaining the maximal score. -/

/-- Python `s.lower()`, character by character (ASCII case folding, the
relevant fragment for registry artist names). -/
def pyLower (s : String) : String :=
  ⟨s.data.map Char.toLower⟩

/-- Accumulator pass of Python `s.split()`: split on whitespace runs,
dropping empty pieces (`cur` holds the current token reversed). -/
def splitWsAux : List Char → List Char → List String
  | cur, [] => if cur.isEmpty then [] else [⟨cur.reverse⟩]
  | cur, c :: cs =>
    if c.isWhitespace then
      (if cur.isEmpty then [] else [⟨cur.reverse⟩]) ++ splitWsAux [] cs
    else splitWsAux (c :: cur) cs

/-- Python `s.split()`. -/
def splitWs (s : String) : List String :=
  splitWsAux [] s.data

/-- Code-point lexicographic order on character lists, as Python string
comparison. -/
def charListLt : List Char → List Char → Bool
  | [], [] => false
  | [], _ :: _ => true
  | _ :: _, [] => false
  | a :: as, b :: bs =>
    if a < b then true else if b < a then false else charListLt as bs

/-- Insert a string into an ascending list (code-point lexicographic order). -/
def insortStr (x : String) : List String → List String
  | [] => [x]
  | y :: ys => if charListLt y.data x.data then y :: insortStr x ys else x :: y :: ys

/-- Ascending sort of a list of strings, as Python `sorted`. -/
def sortStrings : List String → List String
  | [] => []
  | x :: xs => insortStr x (sortStrings xs)

/-- Python `" ".join(tokens)`, at the character level. -/
def joinSpace : List String → List Char
  | [] => []
  | [t] => t.data
  | t :: ts => t.data ++ ' ' :: joinSpace ts

/-- The token-sort preprocessing of `fuzz.token_sort_ratio`:
`" ".join(sorted(s.split()))`. -/
def tokenSort (s : String) : String :=
  ⟨joinSpace (sortStrings (splitWs s))⟩

/-- One row of the longest-common-subsequence recursion (structural so the
kernel can evaluate it). -/
def lcsRow (a : Char) (f : List Char → Nat) : List Char → Nat
  | [] => 0
  | b :: bs => if a = b then f bs + 1 else max (lcsRow a f bs) (f (b :: bs))

/-- Longest common subsequence length of two character lists. -/
def lcs : List Char → List Char → Nat
  | [], _ => 0
  | a :: as, bs => lcsRow a (lcs as) bs

/-- `fuzz.ratio`: normalized indel similarity scaled to 0–100, i.e.
`100 * (1 - dist/(|a|+|b|))` with `dist = |a|+|b| - 2*lcs a b`. -/
def fuzzScore (a b : String) : Rat :=
  if a.length + b.length = 0 then 100
  else mkRat (200 * lcs a.data b.data) (a.length + b.length)

/-- `fuzz.token_sort_ratio`. -/
def tokenSortScore (a b : String) : Rat :=
  fuzzScore (tokenSort a) (tokenSort b)

/-- The similarity used by the matcher: processor (`x.lower()`) applied to
both query and choice, then the token-sort scorer. -/
def scorerSim (query cand : String) : Rat :=
  tokenSortScore (pyLower query) (pyLower cand)

/-- Index and value of the first maximal element of a list of scores;
models `process.extractOne`'s tie-breaking (first occurrence wins). -/
def argmaxFirst : List Rat → Option (Nat × Rat)
  | [] => none
  | x :: xs =>
    match argmaxFirst xs with
    | none => some (0, x)
    | some (j, v) => if x < v then some (j + 1, v) else some (0, x)

/-- `process.extractOne` restricted to the returned index. -/
def extractOneIdx (query : String) (choices : List String) : Option Nat :=
  (argmaxFirst (choices.map (scorerSim query))).map Prod.fst

/-- A parsed MusicBrainz search candidate (`matches[i]`); `Option` fields
model JSON keys that may be absent. -/
structure Candidate where
  score : Nat
  name : String
  mbid : String
  type? : Option String
  gender? : Option String
  country? : Option String
  lifeBegin? : Option String
  lifeEnd? : Option String
  beginAreaId? : Option String
  endAreaId? : Option String
deriving DecidableEq

/-- Failure of the matcher: the `IndexError` raised by `matches[0]` on an
empty candidate list. -/
inductive MatchErr where
  | notFound
deriving DecidableEq

/-- The candidate-selection core of `find_musicbrainz_url` (lines 56–62):
exact-score short-circuit on the first candidate, otherwise the index of
the top fuzzy match. -/
def resolve_idx (artist_name : String) (ms : List Candidate) :
    Except MatchErr Nat :=
  match ms with
  | [] => .error .notFound
  | m0 :: rest =>
    if m0.score = 100 then .ok 0
    else
      match extractOneIdx artist_name ((m0 :: rest).map Candidate.name) with
      | some idx => .ok idx
      | none => .error .notFound

theorem argmaxFirst_eq_none_iff (l : List Rat) : argmaxFirst l = none ↔ l = [] := by
  cases l with
  | nil => simp [argmaxFirst]
  | cons x xs =>
    simp only [argmaxFirst]
    constructor
    · intro h
      cases hx : argmaxFirst xs with
      | none => rw [hx] at h; exact Option.noConfusion h
      | some p =>
        rw [hx] at h
        rcases p with ⟨j, v⟩
        by_cases hlt : x < v <;> simp [hlt] at h
    · intro h; exact List.noConfusion h

theorem argmaxFirst_spec (l : List Rat) (j : Nat) (v : Rat)
    (h : argmaxFirst l = some (j, v)) :
    nth l j = some v ∧ (∀ k w, nth l k = some w → w ≤ v) ∧
      (∀ k w, k < j → nth l k = some w → w < v) := by
  induction l generalizing j v with
  | nil => exact absurd h (by simp [argmaxFirst])
  | cons x xs ih =>
    simp only [argmaxFirst] at h
    cases hx : argmaxFirst xs with
    | none =>
      rw [hx] at h
      have hxs : xs = [] := (argmaxFirst_eq_none_iff xs).mp hx
      subst hxs
      rcases Prod.mk.injEq .. ▸ Option.some.injEq _ _ ▸ h with h'
      have hj : j = 0 := by
        have := Option.some.inj h
        exact (Prod.mk.inj this).1.symm
      have hv : v = x := by
        have := Option.some.inj h
        exact (Prod.mk.inj this).2.symm
      subst hj; subst hv
      refine ⟨rfl, ?_, ?_⟩
      · intro k w hw
        cases k with
        | zero => simp [nth] at hw; simp [hw]
        | succ n => simp [nth] at hw
      · intro k w hk hw; omega
    | some p =>
      rcases p with ⟨j', v'⟩
      rw [hx] at h
      obtain ⟨hnth, hmax, hfirst⟩ := ih j' v' hx
      by_cases hlt : x < v'
      · simp only [if_pos hlt] at h
        have hj : j = j' + 1 := ((Prod.mk.inj (Option.some.inj h)).1).symm
        have hv : v = v' := ((Prod.mk.inj (Option.some.inj h)).2).symm
        subst hj; subst hv
        refine ⟨by simpa [nth] using hnth, ?_, ?_⟩
        · intro k w hw
          cases k with
          | zero => simp [nth] at hw; subst hw; exact le_of_lt hlt
          | succ n => exact hmax n w (by simpa [nth] using hw)
        · intro k w hk hw
          cases k with
          | zero => simp [nth] at hw; subst hw; exact hlt
          | succ n => exact hfirst n w (by omega) (by simpa [nth] using hw)
      · simp only [if_neg hlt] at h
        have hj : j = 0 := ((Prod.mk.inj (Option.some.inj h)).1).symm
        have hv : v = x := ((Prod.mk.inj (Option.some.inj h)).2).symm
        subst hj; subst hv
        refine ⟨rfl, ?_, ?_⟩
        · intro k w hw
          cases k with
          | zero => simp [nth] at hw; simp [hw]
          | succ n =>
            have := hmax n w (by simpa [nth] using hw)
            exact le_trans this (not_lt.mp hlt)
        · intro k w hk hw; omega

/-! ### Registry fetch wrapper and the artist snapshot -/

/-- The fields assembled into `query_dict` (lines 64–72).  `mb_id` is the
always-present registry identifier; the rest may be absent. -/
structure QueryDict where
  type? : Option String
  gender? : Option String
  country? : Option String
  time_begin? : Option String
  time_end? : Option String
  begin_area_id? : Option String
  end_area_id? : Option String
  mb_id : String
deriving DecidableEq

/-- Python `s.strip()`: drop leading and trailing whitespace. -/
def pyStrip (s : String) : String :=
  ⟨((s.data.dropWhile Char.isWhitespace).reverse.dropWhile Char.isWhitespace).reverse⟩

/-- Python `.lower().strip()`. -/
def pyLowerStrip (s : String) : String :=
  pyStrip (pyLower s)

/-- Build `query_dict` from the selected candidate (lines 64–72). -/
def mkQueryDict (m : Candidate) : QueryDict :=
  { type? := m.type?.map pyLowerStrip
    gender? := m.gender?.map pyLowerStrip
    country? := m.country?.map pyLowerStrip
    time_begin? := m.lifeBegin?
    time_end? := m.lifeEnd?
    begin_area_id? := m.beginAreaId?
    end_area_id? := m.endAreaId?
    mb_id := pyLowerStrip m.mbid }

/-- An HTTP response from the registry search; `artists? = none` models a
body whose JSON decoding or `"artists"` key access raises. -/
structure MBResponse where
  status : Nat
  artists? : Option (List Candidate)
deriving DecidableEq

/-- Outcome of one registry lookup as seen by the crawl loop: a populated
`query_dict`, the implicit `None` return, or a raised exception. -/
inductive Outcome1 where
  | success (d : QueryDict)
  | empty
  | failure
deriving DecidableEq

/-- `find_musicbrainz_url` (lines 36–75) as a function of the transport
result: a raised request exception propagates (`failure`); a non-200
response falls off the function and returns `None` (`empty`); a 200
response with decodable body selects a candidate via `resolve_idx`, where
an empty candidate list raises `IndexError` (`failure`). -/
def find_musicbrainz_url (artist_name : String)
    (resp : Except Unit MBResponse) : Outcome1 :=
  match resp with
  | .error _ => .failure
  | .ok r =>
    if r.status = 200 then
      match r.artists? with
      | none => .failure
      | some ms =>
        match resolve_idx artist_name ms with
        | .ok idx =>
          match nth ms idx with
          | some m => .success (mkQueryDict m)
          | none => .failure
        | .error _ => .failure
    else .empty

/-- One row of the artists snapshot (`df_artists`); `none` is a pandas
null marker. -/
structure ArtistRow where
  artist : String
  type? : Option String
  gender? : Option String
  country? : Option String
  time_begin? : Option String
  time_end? : Option String
  begin_area_id? : Option String
  end_area_id? : Option String
  mb_id : Option String
  wikidata_id : Option String
  discogs_id : Option String
  genius_url : Option String
deriving DecidableEq

/-- Observable events of a run: collaborator invocations, the printed
diagnostic, and backoff sleeps. -/
inductive Event where
  | mbQuery (i : Nat)
  | detailQuery (i : Nat)
  | diag (artist : String)
  | sleep (secs : Nat)
deriving DecidableEq

/-- Write all `query_dict` fields onto a row
(`for v in mb_data.keys(): df_artists.loc[r, v] = mb_data[v]`). -/
def applyQueryDict (d : QueryDict) (r : ArtistRow) : ArtistRow :=
  { r with
    type? := d.type?
    gender? := d.gender?
    country? := d.country?
    time_begin? := d.time_begin?
    time_end? := d.time_end?
    begin_area_id? := d.begin_area_id?
    end_area_id? := d.end_area_id?
    mb_id := some d.mb_id }

/-- Artist display string of row `i`, as printed by the except branch. -/
def artistAt (rows : List ArtistRow) (i : Nat) : String :=
  ((nth rows i).map ArtistRow.artist).getD ""

/-- Stage-1 work-list: `df_artists.query("mb_id!=mb_id").index`
(line 213) — the rows whose `mb_id` is null. -/
def stage1Worklist (rows : List ArtistRow) : List Nat :=
  (List.range rows.length).filter fun i =>
    match nth rows i with
    | some r => r.mb_id.isNone
    | none => false

/-- One iteration of the stage-1 loop body (lines 216–233): success writes
the dict in place; a falsy return sleeps 30s; an exception prints the
artist and sleeps 10s. -/
def stage1StepF (fetch : Nat → Outcome1) (rows : List ArtistRow) (i : Nat) :
    List ArtistRow × List Event :=
  match fetch i with
  | .success d => (listModify (applyQueryDict d) i rows, [.mbQuery i])
  | .empty => (rows, [.mbQuery i, .sleep 30])
  | .failure => (rows, [.mbQuery i, .diag (artistAt rows i), .sleep 10])

/-- The stage-1 loop over a fixed work-list. -/
def stage1Go (fetch : Nat → Outcome1) :
    List Nat → List ArtistRow → List ArtistRow × List Event
  | [], rows => (rows, [])
  | i :: ws, rows =>
    let s := stage1StepF fetch rows i
    let t := stage1Go fetch ws s.1
    (t.1, s.2 ++ t.2)

/-- The stage-1 (registry lookup) run: work-list computed once by scanning
the snapshot, then processed in order. -/
def stage1Run (fetch : Nat → Outcome1) (rows : List ArtistRow) :
    List ArtistRow × List Event :=
  stage1Go fetch (stage1Worklist rows) rows

/-- The dictionary returned by `get_artist_details` (lines 97–114):
the wikidata and discogs ids default to `""` when their favicon is
missing, while `genius_url` defaults to `None`. -/
structure DetailDict where
  wikidata_id : String
  discogs_id : String
  genius_url : Option String
deriving DecidableEq

/-- Outcome of one detail scrape: the returned dictionary, or a raised
exception.  (The function always returns a dictionary when no exception
occurs; there is no empty case.) -/
inductive Outcome2 where
  | success (d : DetailDict)
  | failure
deriving DecidableEq

/-- Write all `info_dict` fields onto a row (lines 243–245). -/
def applyDetail (d : DetailDict) (r : ArtistRow) : ArtistRow :=
  { r with
    wikidata_id := some d.wikidata_id
    discogs_id := some d.discogs_id
    genius_url := d.genius_url }

/-- Stage-2 work-list:
`df_artists.query("genius_url!=genius_url and mb_id==mb_id").index`
(line 236) — `genius_url` null and `mb_id` non-null. -/
def stage2Worklist (rows : List ArtistRow) : List Nat :=
  (List.range rows.length).filter fun i =>
    match nth rows i with
    | some r => r.genius_url.isNone && r.mb_id.isSome
    | none => false

/-- One iteration of the stage-2 loop body (lines 238–251). -/
def stage2StepF (fetch : Nat → Outcome2) (rows : List ArtistRow) (i : Nat) :
    List ArtistRow × List Event :=
  match fetch i with
  | .success d => (listModify (applyDetail d) i rows, [.detailQuery i])
  | .failure => (rows, [.detailQuery i, .diag (artistAt rows i), .sleep 10])

/-- The stage-2 loop over a fixed work-list. -/
def stage2Go (fetch : Nat → Outcome2) :
    List Nat → List ArtistRow → List ArtistRow × List Event
  | [], rows => (rows, [])
  | i :: ws, rows =>
    let s := stage2StepF fetch rows i
    let t := stage2Go fetch ws s.1
    (t.1, s.2 ++ t.2)

/-- The stage-2 (detail scrape) run. -/
def stage2Run (fetch : Nat → Outcome2) (rows : List ArtistRow) :
    List ArtistRow × List Event :=
  stage2Go fetch (stage2Worklist rows) rows

/-- One run of `main` over the artists snapshot (both crawl loops, each
work-list recomputed by scanning the current snapshot state). -/
def runArtistMain (fetch1 : Nat → Outcome1) (fetch2 : Nat → Outcome2)
    (rows : List ArtistRow) : List ArtistRow × List Event :=
  let s1 := stage1Run fetch1 rows
  let s2 := stage2Run fetch2 s1.1
  (s2.1, s1.2 ++ s2.2)

/-! ### Genius song-search loop (`scrape_genius.py`, lines 129–164) -/

/-- One row of the songs snapshot (`df_songs`). -/
structure GRow where
  artist : String
  song : String
  genius_artist : Option String
  genius_song : Option String
  genius_url : Option String
  lyrics : Option String
deriving DecidableEq

/-- The fields read from an exact search hit
(`res_dict["response"]["hits"][idx_hit]["result"]`). -/
structure GHit where
  artist_names : String
  title : String
  url : String
deriving DecidableEq

/-- Write the three hit fields onto a song row (lines 146–148). -/
def applyGHit (h : GHit) (r : GRow) : GRow :=
  { r with
    genius_artist := some h.artist_names
    genius_song := some h.title
    genius_url := some h.url }

/-- One iteration of the search loop body (lines 132–164): query by song
name, and if no exact hit, retry with "song by artist"; either request (or
its JSON decoding / hit search) may raise, and there is no try/except
around the body, so an exception propagates out of the loop.  An oracle
result `.ok none` is `idx_hit == -1`; `.ok (some h)` is an exact hit. -/
def geniusItem (q1 q2 : Nat → Except Unit (Option GHit))
    (rows : List GRow) (i : Nat) : Except Unit (List GRow) :=
  match q1 i with
  | .error e => .error e
  | .ok (some h) => .ok (listModify (applyGHit h) i rows)
  | .ok none =>
    match q2 i with
    | .error e => .error e
    | .ok (some h) => .ok (listModify (applyGHit h) i rows)
    | .ok none => .ok rows

/-- The search loop over a fixed work-list; an uncontained exception
aborts the run, reporting the item index and the snapshot state at the
abort (the final save is never reached). -/
def geniusGo (q1 q2 : Nat → Except Unit (Option GHit)) :
    List Nat → List GRow → Except (Nat × List GRow) (List GRow)
  | [], rows => .ok rows
  | i :: ws, rows =>
    match geniusItem q1 q2 rows i with
    | .error _ => .error (i, rows)
    | .ok rows' => geniusGo q1 q2 ws rows'

/-- The work-list of line 130:
`df_songs.sample(400).query("genius_url!=genius_url").index` — the sampled
row indices (in sample order) filtered to the pending ones. -/
def geniusWorklist (sampled : List Nat) (rows : List GRow) : List Nat :=
  sampled.filter fun i =>
    match nth rows i with
    | some r => r.genius_url.isNone
    | none => false

/-- All pending song rows of a snapshot (null `genius_url`). -/
def geniusPendingAll (rows : List GRow) : List Nat :=
  (List.range rows.length).filter fun i =>
    match nth rows i with
    | some r => r.genius_url.isNone
    | none => false

/-- One run of the Genius search loop, with the random `sample(400)`
modeled by the `sampled` index list it produced. -/
def geniusSearchRun (q1 q2 : Nat → Except Unit (Option GHit))
    (sampled : List Nat) (rows : List GRow) :
    Except (Nat × List GRow) (List GRow) :=
  geniusGo q1 q2 (geniusWorklist sampled rows) rows

/-! ### Artist Expander (`expand_with_dict`, lines 14–33)

A snapshot row is an artist cell (`Option` to host a pandas null) plus an
opaque payload of all other columns.  The pandas pipeline maps the artist
column through the dict with `[original]` as fallback, then
`explode`s: a non-empty list yields one row per element, and an *empty*
list yields a single row whose artist cell is null. -/

/-- A row with an artist column and all remaining columns as payload. -/
structure XRow (α : Type) where
  artist : Option String
  payload : α
deriving DecidableEq

/-- The exploded artist cells of one row: `mapping` hit (pandas `explode`
turns `[]` into a single null), or the `[original]` fallback. -/
def explodeCells (mapping : String → Option (List String)) (r : XRow α) :
    List (Option String) :=
  match r.artist.bind mapping with
  | some l => if l.isEmpty then [none] else l.map some
  | none => [r.artist]

/-- `expand_with_dict`: explode every row in place. -/
def expand_with_dict (mapping : String → Option (List String)) :
    List (XRow α) → List (XRow α)
  | [] => []
  | r :: rs =>
    (explodeCells mapping r).map (fun a => ⟨a, r.payload⟩) ++
      expand_with_dict mapping rs

/-- Modelled from the spec's words (§4.2), for comparison with
`expand_with_dict`: a mapped row yields exactly one output row per mapped
name, an unmapped row yields itself. -/
def specExpand (mapping : String → Option (List String)) :
    List (XRow α) → List (XRow α)
  | [] => []
  | r :: rs =>
    (match r.artist.bind mapping with
     | some l => l.map (fun a => (⟨some a, r.payload⟩ : XRow α))
     | none => [r]) ++ specExpand mapping rs

/-- The spec's output-row-count formula:
`sum over rows of (len(mapping[artist]) if present else 1)`. -/
def specExpandCount (mapping : String → Option (List String)) :
    List (XRow α) → Nat
  | [] => 0
  | r :: rs =>
    (match r.artist.bind mapping with
     | some l => l.length
     | none => 1) + specExpandCount mapping rs

/-! ### Lemmas about the work-lists and the crawl loops -/

theorem mem_stage1Worklist (rows : List ArtistRow) (i : Nat) :
    i ∈ stage1Worklist rows ↔ ∃ r, nth rows i = some r ∧ r.mb_id = none := by
  rw [stage1Worklist, List.mem_filter, List.mem_range]
  constructor
  · rintro ⟨hlt, hp⟩
    obtain ⟨r, hr⟩ := nth_eq_some_of_lt hlt
    rw [hr] at hp
    exact ⟨r, hr, Option.isNone_iff_eq_none.mp hp⟩
  · rintro ⟨r, hr, hmb⟩
    exact ⟨lt_of_nth_eq_some hr, by simp [hr, hmb]⟩

theorem mem_stage2Worklist (rows : List ArtistRow) (i : Nat) :
    i ∈ stage2Worklist rows ↔
      ∃ r, nth rows i = some r ∧ r.genius_url = none ∧ r.mb_id ≠ none := by
  rw [stage2Worklist, List.mem_filter, List.mem_range]
  constructor
  · rintro ⟨hlt, hp⟩
    obtain ⟨r, hr⟩ := nth_eq_some_of_lt hlt
    rw [hr] at hp
    rcases Bool.and_eq_true .. ▸ hp with ⟨h1, h2⟩
    exact ⟨r, hr, Option.isNone_iff_eq_none.mp h1,
      Option.isSome_iff_ne_none.mp h2⟩
  · rintro ⟨r, hr, hgu, hmb⟩
    refine ⟨lt_of_nth_eq_some hr, ?_⟩
    simp [hr, hgu, Option.isSome_iff_ne_none.mpr hmb]

theorem nodup_stage1Worklist (rows : List ArtistRow) :
    (stage1Worklist rows).Nodup :=
  (List.nodup_range _).filter _

theorem nodup_stage2Worklist (rows : List ArtistRow) :
    (stage2Worklist rows).Nodup :=
  (List.nodup_range _).filter _

theorem stage1Go_unfold (f : Nat → Outcome1) (j : Nat) (ws : List Nat)
    (rows : List ArtistRow) :
    stage1Go f (j :: ws) rows =
      ((stage1Go f ws (stage1StepF f rows j).1).1,
        (stage1StepF f rows j).2 ++ (stage1Go f ws (stage1StepF f rows j).1).2) :=
  rfl

theorem stage2Go_unfold (f : Nat → Outcome2) (j : Nat) (ws : List Nat)
    (rows : List ArtistRow) :
    stage2Go f (j :: ws) rows =
      ((stage2Go f ws (stage2StepF f rows j).1).1,
        (stage2StepF f rows j).2 ++ (stage2Go f ws (stage2StepF f rows j).1).2) :=
  rfl

/-- Each work-list item triggers exactly one registry query per pass. -/
theorem stage1Go_count_mbQuery (f : Nat → Outcome1) (ws : List Nat)
    (rows : List ArtistRow) (i : Nat) :
    countList (.mbQuery i) (stage1Go f ws rows).2 = countList i ws := by
  induction ws generalizing rows with
  | nil => rfl
  | cons j ws ih =>
    rw [stage1Go_unfold, countList_append, ih]
    have hstep : countList (Event.mbQuery i) (stage1StepF f rows j).2 =
        (if j = i then 1 else 0) := by
      cases hf : f j <;>
        simp [stage1StepF, hf, countList, Event.mbQuery.injEq]
    rw [hstep]; rfl

/-- Stage 1 never invokes the detail-scrape collaborator. -/
theorem stage1Go_count_detailQuery (f : Nat → Outcome1) (ws : List Nat)
    (rows : List ArtistRow) (i : Nat) :
    countList (.detailQuery i) (stage1Go f ws rows).2 = 0 := by
  induction ws generalizing rows with
  | nil => rfl
  | cons j ws ih =>
    rw [stage1Go_unfold, countList_append, ih]
    cases hf : f j <;> simp [stage1StepF, hf, countList]

/-- Each work-list item triggers exactly one detail scrape per pass. -/
theorem stage2Go_count_detailQuery (f : Nat → Outcome2) (ws : List Nat)
    (rows : List ArtistRow) (i : Nat) :
    countList (.detailQuery i) (stage2Go f ws rows).2 = countList i ws := by
  induction ws generalizing rows with
  | nil => rfl
  | cons j ws ih =>
    rw [stage2Go_unfold, countList_append, ih]
    have hstep : countList (Event.detailQuery i) (stage2StepF f rows j).2 =
        (if j = i then 1 else 0) := by
      cases hf : f j <;>
        simp [stage2StepF, hf, countList, Event.detailQuery.injEq]
    rw [hstep]; rfl

/-- Stage 2 never invokes the registry-search collaborator. -/
theorem stage2Go_count_mbQuery (f : Nat → Outcome2) (ws : List Nat)
    (rows : List ArtistRow) (i : Nat) :
    countList (.mbQuery i) (stage2Go f ws rows).2 = 0 := by
  induction ws generalizing rows with
  | nil => rfl
  | cons j ws ih =>
    rw [stage2Go_unfold, countList_append, ih]
    cases hf : f j <;> simp [stage2StepF, hf, countList]

/-- Rows outside the work-list are untouched by the stage-1 pass. -/
theorem stage1Go_nth_of_not_mem (f : Nat → Outcome1) (ws : List Nat)
    (rows : List ArtistRow) (i : Nat) (h : i ∉ ws) :
    nth (stage1Go f ws rows).1 i = nth rows i := by
  induction ws generalizing rows with
  | nil => rfl
  | cons j ws ih =>
    have hij : i ≠ j := fun he => h (he ▸ List.mem_cons_self j ws)
    have hws : i ∉ ws := fun hm => h (List.mem_cons_of_mem j hm)
    rw [stage1Go_unfold]
    show nth (stage1Go f ws (stage1StepF f rows j).1).1 i = nth rows i
    rw [ih _ hws]
    cases hf : f j <;> simp [stage1StepF, hf]
    exact nth_listModify_ne _ _ hij

/-- Rows outside the work-list are untouched by the stage-2 pass. -/
theorem stage2Go_nth_of_not_mem (f : Nat → Outcome2) (ws : List Nat)
    (rows : List ArtistRow) (i : Nat) (h : i ∉ ws) :
    nth (stage2Go f ws rows).1 i = nth rows i := by
  induction ws generalizing rows with
  | nil => rfl
  | cons j ws ih =>
    have hij : i ≠ j := fun he => h (he ▸ List.mem_cons_self j ws)
    have hws : i ∉ ws := fun hm => h (List.mem_cons_of_mem j hm)
    rw [stage2Go_unfold]
    show nth (stage2Go f ws (stage2StepF f rows j).1).1 i = nth rows i
    rw [ih _ hws]
    cases hf : f j <;> simp [stage2StepF, hf]
    exact nth_listModify_ne _ _ hij

/-- The stage-1 pass never writes the `genius_url` column. -/
theorem stage1Go_genius_url (f : Nat → Outcome1) (ws : List Nat)
    (rows : List ArtistRow) (i : Nat) :
    (nth (stage1Go f ws rows).1 i).map ArtistRow.genius_url =
      (nth rows i).map ArtistRow.genius_url := by
  induction ws generalizing rows with
  | nil => rfl
  | cons j ws ih =>
    rw [stage1Go_unfold]
    show (nth (stage1Go f ws (stage1StepF f rows j).1).1 i).map _ = _
    rw [ih]
    cases hf : f j with
    | success d =>
      simp only [stage1StepF, hf]
      by_cases hij : i = j
      · subst hij
        rw [nth_listModify_self, Option.map_map]
        cases nth rows i <;> rfl
      · rw [nth_listModify_ne _ _ hij]
    | empty => simp [stage1StepF, hf]
    | failure => simp [stage1StepF, hf]

/-- The stage-2 pass never writes the `mb_id` column. -/
theorem stage2Go_mb_id (f : Nat → Outcome2) (ws : List Nat)
    (rows : List ArtistRow) (i : Nat) :
    (nth (stage2Go f ws rows).1 i).map ArtistRow.mb_id =
      (nth rows i).map ArtistRow.mb_id := by
  induction ws generalizing rows with
  | nil => rfl
  | cons j ws ih =>
    rw [stage2Go_unfold]
    show (nth (stage2Go f ws (stage2StepF f rows j).1).1 i).map _ = _
    rw [ih]
    cases hf : f j with
    | success d =>
      simp only [stage2StepF, hf]
      by_cases hij : i = j
      · subst hij
        rw [nth_listModify_self, Option.map_map]
        cases nth rows i <;> rfl
      · rw [nth_listModify_ne _ _ hij]
    | failure => simp [stage2StepF, hf]

/-! ### Claim C1: Identity Matcher resolution -/

/-- C1: for every non-empty candidate list the matcher returns some
candidate: if the first candidate's registry score is 100 it selects index
0 unconditionally; otherwise it selects the candidate maximizing the
token-order-insensitive similarity between the lower-cased query and each
candidate's (lower-cased) display name, ties broken by first occurrence in
registry order, with no minimum-similarity threshold. -/
theorem identity_matcher_resolution (name : String) (ms : List Candidate)
    (hne : ms ≠ []) :
    ∃ i m, resolve_idx name ms = .ok i ∧ nth ms i = some m ∧
      (∀ m0 rest, ms = m0 :: rest → m0.score = 100 → i = 0) ∧
      (∀ m0 rest, ms = m0 :: rest → m0.score ≠ 100 →
        (∀ k c, nth ms k = some c →
          scorerSim name c.name ≤ scorerSim name m.name) ∧
        (∀ k c, k < i → nth ms k = some c →
          scorerSim name c.name < scorerSim name m.name)) := by
  cases ms with
  | nil => exact absurd rfl hne
  | cons m0 rest =>
    by_cases h100 : m0.score = 100
    · refine ⟨0, m0, by simp [resolve_idx, h100], rfl, ?_, ?_⟩
      · intro _ _ _ _; rfl
      · intro m0' rest' heq hne100
        cases heq
        exact absurd h100 hne100
    · have hscores : ∀ k,
          nth (((m0 :: rest).map Candidate.name).map (scorerSim name)) k =
            (nth (m0 :: rest) k).map (fun c => scorerSim name c.name) := by
        intro k
        rw [nth_map, nth_map, Option.map_map]
        rfl
      cases hA : argmaxFirst (((m0 :: rest).map Candidate.name).map (scorerSim name)) with
      | none =>
        have := (argmaxFirst_eq_none_iff _).mp hA
        simp at this
      | some p =>
        rcases p with ⟨j, v⟩
        obtain ⟨hnth, hmax, hfirst⟩ := argmaxFirst_spec _ _ _ hA
        rw [hscores j] at hnth
        obtain ⟨m, hm, hv⟩ := Option.map_eq_some'.mp hnth
        refine ⟨j, m, ?_, hm, ?_, ?_⟩
        · simp only [resolve_idx, if_neg h100, extractOneIdx]
          rw [hA]
          rfl
        · intro m0' rest' heq h100'
          cases heq
          exact absurd h100' h100
        · intro m0' rest' heq hne100
          refine ⟨?_, ?_⟩
          · intro k c hkc
            have hle := hmax k (scorerSim name c.name)
              (by rw [hscores k, hkc]; rfl)
            rw [← hv] at hle
            exact hle
          · intro k c hki hkc
            have hlt := hfirst k (scorerSim name c.name) hki
              (by rw [hscores k, hkc]; rfl)
            rw [← hv] at hlt
            exact hlt

/-- A concrete registry candidate for the C1 witness. -/
def witCand : Candidate :=
  ⟨100, "the beatles", "mbid-1", none, none, none, none, none, none, none⟩

/-- C1 witness: the matcher applied to a concrete one-element candidate
list returns a candidate. -/
theorem identity_matcher_resolution_witness :
    ([witCand] : List Candidate) ≠ [] ∧
      ∃ i m, resolve_idx "The Beatles" [witCand] = .ok i ∧
        nth [witCand] i = some m := by
  refine ⟨by decide, ?_⟩
  obtain ⟨i, m, h1, h2, _, _⟩ :=
    identity_matcher_resolution "The Beatles" [witCand] (by decide)
  exact ⟨i, m, h1, h2⟩

/-! ### Claim C7: Identity Matcher empty-input failure -/

/-- C7: the matcher signals its failure (`NotFound`, the `IndexError`
raised by `matches[0]`) exactly when the candidate list is empty. -/
theorem identity_matcher_empty_notfound (name : String) (ms : List Candidate) :
    resolve_idx name ms = .error .notFound ↔ ms = [] := by
  constructor
  · intro h
    cases ms with
    | nil => rfl
    | cons m0 rest =>
      by_cases h100 : m0.score = 100
      · simp [resolve_idx, h100] at h
      · cases hA : argmaxFirst (((m0 :: rest).map Candidate.name).map (scorerSim name)) with
        | none =>
          have := (argmaxFirst_eq_none_iff _).mp hA
          simp at this
        | some p =>
          rcases p with ⟨j, v⟩
          simp only [resolve_idx, if_neg h100, extractOneIdx] at h
          rw [hA] at h
          exact absurd h (by simp)
  · intro h
    subst h
    rfl

/-! ### Claims C5 and C6: Artist Expander -/

/-- A mapping sending one artist to the empty list, on which pandas
`explode` and the spec's per-mapped-name reading disagree. -/
def cexExpandMapping : String → Option (List String) :=
  fun s => if s = "A" then some [] else none

/-- A one-row snapshot whose artist is mapped to the empty list. -/
def cexExpandRows : List (XRow Nat) :=
  [⟨some "A", 1⟩]

/-- C5 counterexample: for a mapping whose value is the empty list, the
code produces one output row with a null artist (pandas `explode` of an
empty list), while the claim's reading produces zero rows and its count
formula gives 0 ≠ 1. -/
theorem artist_expander_spec_cex :
    expand_with_dict cexExpandMapping cexExpandRows = [⟨none, 1⟩] ∧
      specExpand cexExpandMapping cexExpandRows = [] ∧
      (expand_with_dict cexExpandMapping cexExpandRows).length ≠
        specExpandCount cexExpandMapping cexExpandRows := by
  decide

/-- C5 (amended): provided no artist is mapped to the empty list, each
mapped row yields one output row per mapped name (artist replaced, payload
preserved), each unmapped row yields itself, blocks appear contiguously in
original row order, and the output length is the claim's sum formula. -/
theorem artist_expander_semantics {α : Type} (rows : List (XRow α))
    (mapping : String → Option (List String))
    (hm : ∀ r ∈ rows, r.artist.bind mapping ≠ some []) :
    expand_with_dict mapping rows = specExpand mapping rows ∧
      (expand_with_dict mapping rows).length = specExpandCount mapping rows := by
  induction rows with
  | nil => exact ⟨rfl, rfl⟩
  | cons r rs ih =>
    have hr := hm r (List.mem_cons_self r rs)
    obtain ⟨ih1, ih2⟩ := ih (fun r' h' => hm r' (List.mem_cons_of_mem r h'))
    cases hb : r.artist.bind mapping with
    | none =>
      constructor
      · simp [expand_with_dict, specExpand, explodeCells, hb, ih1]
      · simp [expand_with_dict, specExpandCount, explodeCells, hb, ih2]
        omega
    | some l =>
      have hle : l.isEmpty = false := by
        cases l with
        | nil => exact absurd hb (hb ▸ hm r (List.mem_cons_self r rs))
        | cons a as => rfl
      constructor
      · simp [expand_with_dict, specExpand, explodeCells, hb, hle, ih1,
          List.map_map]
      · simp [expand_with_dict, specExpandCount, explodeCells, hb, hle, ih2]

/-- The concrete mapping of the expander witnesses. -/
def witExpandMapping : String → Option (List String) :=
  fun s => if s = "A & B" then some ["A", "B"] else none

/-- The concrete rows of the expander witnesses. -/
def witExpandRows : List (XRow Nat) :=
  [⟨some "A & B", 5⟩, ⟨some "C", 7⟩]

/-- C5 witness: the amended claim evaluated on a two-row snapshot with a
two-way split. -/
theorem artist_expander_semantics_witness :
    (∀ r ∈ witExpandRows, r.artist.bind witExpandMapping ≠ some []) ∧
      expand_with_dict witExpandMapping witExpandRows =
        specExpand witExpandMapping witExpandRows :=
  ⟨by decide,
    (artist_expander_semantics witExpandRows witExpandMapping (by decide)).1⟩

/-- Any snapshot none of whose artists is a mapping key is left unchanged
by the expander (every row falls to the `[original]` fallback branch). -/
theorem expand_with_dict_eq_self_of_unmapped {α : Type} (l : List (XRow α))
    (mapping : String → Option (List String))
    (h : ∀ r ∈ l, r.artist.bind mapping = none) :
    expand_with_dict mapping l = l := by
  induction l with
  | nil => rfl
  | cons r rs ih =>
    have hr := h r (List.mem_cons_self r rs)
    have hrs := ih (fun r' h' => h r' (List.mem_cons_of_mem r h'))
    simp [expand_with_dict, explodeCells, hr, hrs]

/-- C6: when no artist value of the once-expanded output is a mapping key,
expanding twice equals expanding once. -/
theorem artist_expander_idempotent {α : Type} (rows : List (XRow α))
    (mapping : String → Option (List String))
    (h : ∀ r ∈ expand_with_dict mapping rows, r.artist.bind mapping = none) :
    expand_with_dict mapping (expand_with_dict mapping rows) =
      expand_with_dict mapping rows :=
  expand_with_dict_eq_self_of_unmapped _ mapping h

/-- C6 witness: idempotence evaluated on the concrete two-row snapshot. -/
theorem artist_expander_idempotent_witness :
    (∀ r ∈ expand_with_dict witExpandMapping witExpandRows,
        r.artist.bind witExpandMapping = none) ∧
      expand_with_dict witExpandMapping
          (expand_with_dict witExpandMapping witExpandRows) =
        expand_with_dict witExpandMapping witExpandRows :=
  ⟨by decide,
    artist_expander_idempotent witExpandRows witExpandMapping (by decide)⟩

/-! ### Claim C2: Enrichment Resume Tracker work-lists -/

/-- C2: for every snapshot, the stage-1 work-list is exactly the rows with
null `mb_id`, and the stage-2 work-list is exactly the rows with null
`genius_url` and non-null `mb_id`; both are recomputed from the snapshot
alone (no persisted queue). -/
theorem resume_tracker_worklists (rows : List ArtistRow) (i : Nat) :
    (i ∈ stage1Worklist rows ↔ ∃ r, nth rows i = some r ∧ r.mb_id = none) ∧
      (i ∈ stage2Worklist rows ↔
        ∃ r, nth rows i = some r ∧ r.genius_url = none ∧ r.mb_id ≠ none) :=
  ⟨mem_stage1Worklist rows i, mem_stage2Worklist rows i⟩

/-! ### Claim C8: Crawl Loop success and empty outcomes -/

/-- C8: a structured-success fetch writes every result field onto the row
in place (all other columns preserved) and adds no delay, while a
structured-empty fetch writes nothing and sleeps `backoff_seconds` (30);
every work-list item is still processed in the same run. -/
theorem crawl_success_empty_outcomes (f : Nat → Outcome1)
    (rows : List ArtistRow) (i : Nat) (r : ArtistRow)
    (hr : nth rows i = some r) :
    (∀ d, f i = .success d →
      (stage1StepF f rows i).2 = [.mbQuery i] ∧
      nth (stage1StepF f rows i).1 i = some (applyQueryDict d r) ∧
      (applyQueryDict d r).type? = d.type? ∧
      (applyQueryDict d r).gender? = d.gender? ∧
      (applyQueryDict d r).country? = d.country? ∧
      (applyQueryDict d r).time_begin? = d.time_begin? ∧
      (applyQueryDict d r).time_end? = d.time_end? ∧
      (applyQueryDict d r).begin_area_id? = d.begin_area_id? ∧
      (applyQueryDict d r).end_area_id? = d.end_area_id? ∧
      (applyQueryDict d r).mb_id = some d.mb_id ∧
      (applyQueryDict d r).artist = r.artist ∧
      (applyQueryDict d r).wikidata_id = r.wikidata_id ∧
      (applyQueryDict d r).discogs_id = r.discogs_id ∧
      (applyQueryDict d r).genius_url = r.genius_url) ∧
    (f i = .empty → stage1StepF f rows i = (rows, [.mbQuery i, .sleep 30])) ∧
    (∀ ws j, j ∈ ws → 1 ≤ countList (.mbQuery j) (stage1Go f ws rows).2) := by
  refine ⟨?_, ?_, ?_⟩
  · intro d hd
    refine ⟨by simp [stage1StepF, hd], ?_, rfl, rfl, rfl, rfl, rfl, rfl, rfl,
      rfl, rfl, rfl, rfl, rfl⟩
    simp [stage1StepF, hd, nth_listModify_self, hr]
  · intro hd
    simp [stage1StepF, hd]
  · intro ws j hj
    rw [stage1Go_count_mbQuery]
    exact countList_pos_of_mem hj

/-- An all-null pending artist row used by concrete witnesses. -/
def witArtistRow : ArtistRow :=
  ⟨"a", none, none, none, none, none, none, none, none, none, none, none⟩

/-- A registry oracle that always reports the benign empty outcome. -/
def witFetchEmpty : Nat → Outcome1 := fun _ => .empty

/-- C8 witness: the empty-outcome branch evaluated on a concrete one-row
snapshot. -/
theorem crawl_success_empty_outcomes_witness :
    nth [witArtistRow] 0 = some witArtistRow ∧
      stage1StepF witFetchEmpty [witArtistRow] 0 =
        ([witArtistRow], [.mbQuery 0, .sleep 30]) :=
  ⟨by decide,
    (crawl_success_empty_outcomes witFetchEmpty [witArtistRow] 0 witArtistRow
      (by decide)).2.1 rfl⟩

/-! ### Claim C4: Crawl Loop failure containment -/

/-- C4 counterexample rows: two pending songs. -/
def gcexRows : List GRow :=
  [⟨"a1", "s1", none, none, none, none⟩, ⟨"a2", "s2", none, none, none, none⟩]

/-- A Genius search oracle whose request always raises. -/
def gq1fail : Nat → Except Unit (Option GHit) := fun _ => .error ()

/-- A Genius retry oracle that never finds a hit. -/
def gq2none : Nat → Except Unit (Option GHit) := fun _ => .ok none

/-- C4 counterexample: in the Genius song-search loop (which has no
try/except), a transport failure on the first pending item escapes the
loop and aborts the run, leaving the second pending item unprocessed. -/
theorem crawl_failure_escape_cex :
    (nth gcexRows 0).map GRow.genius_url = some none ∧
      (nth gcexRows 1).map GRow.genius_url = some none ∧
      geniusSearchRun gq1fail gq2none [0, 1] gcexRows =
        .error (0, gcexRows) := by
  decide

/-- C4 (amended): in the artist-data registry-lookup loop a fetch failure
is swallowed at item level — the row is untouched, a diagnostic naming the
row's artist is emitted, and the loop sleeps 10 seconds, shorter than the
30-second empty backoff — and every work-list item is still processed; the
Genius song-search loop, by contrast, does not contain failures. -/
theorem crawl_failure_containment (f : Nat → Outcome1)
    (rows : List ArtistRow) (i : Nat) (r : ArtistRow)
    (hr : nth rows i = some r) (hf : f i = .failure) :
    stage1StepF f rows i = (rows, [.mbQuery i, .diag r.artist, .sleep 10]) ∧
      (10 : Nat) < 30 ∧
      (∀ ws j, j ∈ ws → 1 ≤ countList (.mbQuery j) (stage1Go f ws rows).2) := by
  refine ⟨?_, by omega, ?_⟩
  · simp [stage1StepF, hf, artistAt, hr]
  · intro ws j hj
    rw [stage1Go_count_mbQuery]
    exact countList_pos_of_mem hj

/-- A registry oracle that always raises. -/
def witFetchFail : Nat → Outcome1 := fun _ => .failure

/-- C4 witness: the failure branch evaluated on a concrete one-row
snapshot. -/
theorem crawl_failure_containment_witness :
    nth [witArtistRow] 0 = some witArtistRow ∧
      stage1StepF witFetchFail [witArtistRow] 0 =
        ([witArtistRow], [.mbQuery 0, .diag witArtistRow.artist, .sleep 10]) :=
  ⟨by decide,
    (crawl_failure_containment witFetchFail [witArtistRow] 0 witArtistRow
      (by decide) rfl).1⟩

/-! ### Claim C9: classification of non-200 registry responses -/

/-- A concrete non-200 registry response. -/
def badResp : MBResponse := ⟨503, none⟩

/-- C9 counterexample: a 503 response makes `find_musicbrainz_url` return
`None` (the benign empty outcome), so the loop emits no diagnostic, sleeps
the 30-second empty backoff rather than the 10-second failure backoff, and
leaves the row untouched. -/
theorem nonsuccess_status_cex :
    find_musicbrainz_url "a" (.ok badResp) = .empty ∧
      (stage1Run (fun _ => find_musicbrainz_url "a" (.ok badResp))
        [witArtistRow]).2 = [.mbQuery 0, .sleep 30] ∧
      (stage1Run (fun _ => find_musicbrainz_url "a" (.ok badResp))
        [witArtistRow]).1 = [witArtistRow] := by
  decide

/-- C9 (amended): every non-200 registry response yields the implicit
`None` return and is handled as the benign no-match outcome — no fields
written, no diagnostic, a 30-second backoff — leaving the row pending for
a later run. -/
theorem nonsuccess_status_benign (name : String) (resp : MBResponse)
    (h : resp.status ≠ 200) (rows : List ArtistRow) (i : Nat) :
    find_musicbrainz_url name (.ok resp) = .empty ∧
      stage1StepF (fun _ => find_musicbrainz_url name (.ok resp)) rows i =
        (rows, [.mbQuery i, .sleep 30]) := by
  have h1 : find_musicbrainz_url name (.ok resp) = .empty := by
    simp [find_musicbrainz_url, h]
  exact ⟨h1, by simp [stage1StepF, h1]⟩

/-- C9 witness: the amended claim evaluated at the concrete 503 response. -/
theorem nonsuccess_status_benign_witness :
    badResp.status ≠ 200 ∧
      stage1StepF (fun _ => find_musicbrainz_url "a" (.ok badResp))
        [witArtistRow] 0 = ([witArtistRow], [.mbQuery 0, .sleep 30]) :=
  ⟨by decide, (nonsuccess_status_benign "a" badResp (by decide)
    [witArtistRow] 0).2⟩

/-! ### Claim C3: monotonic completion -/

/-- C3 counterexample row: resolved (`mb_id` set) but `genius_url` null. -/
def c3cexRow : ArtistRow :=
  ⟨"a", none, none, none, none, none, none, none, some "m", none, none, none⟩

/-- C3 counterexample snapshot. -/
def c3cexRows : List ArtistRow := [c3cexRow]

/-- Registry oracle for the C3 counterexample (never consulted). -/
def c3cexF1 : Nat → Outcome1 := fun _ => .empty

/-- Detail oracle for the C3 counterexample: the scrape completes but the
page has no genius favicon, so the returned dictionary carries
`genius_url = None`. -/
def c3cexF2 : Nat → Outcome2 := fun _ => .success ⟨"", "", none⟩

/-- C3 counterexample: a detail-scrape attempt completes and confirms the
genius link absent (writing `None`), yet the marker stays null, so the
very next run scrapes the same row again — the row is not "never
re-scraped" after a completed attempt. -/
theorem monotonic_completion_cex :
    countList (.detailQuery 0) (runArtistMain c3cexF1 c3cexF2 c3cexRows).2 = 1 ∧
      (nth (runArtistMain c3cexF1 c3cexF2 c3cexRows).1 0).map
        ArtistRow.genius_url = some none ∧
      countList (.detailQuery 0)
        (runArtistMain c3cexF1 c3cexF2
          (runArtistMain c3cexF1 c3cexF2 c3cexRows).1).2 = 1 := by
  decide

/-- C3 (amended): per run, the registry is invoked exactly once per
unresolved row and never for a resolved row; a row whose `genius_url` is
set is never detail-scraped; and neither non-null marker (`mb_id`,
`genius_url`) is ever cleared.  (A completed detail attempt that finds no
genius link leaves the marker null, so such a row is re-scraped on later
runs.) -/
theorem monotonic_completion (f1 : Nat → Outcome1) (f2 : Nat → Outcome2)
    (rows : List ArtistRow) (i : Nat) (r : ArtistRow)
    (hr : nth rows i = some r) :
    countList (.mbQuery i) (runArtistMain f1 f2 rows).2 =
      (if r.mb_id = none then 1 else 0) ∧
    (r.genius_url ≠ none →
      countList (.detailQuery i) (runArtistMain f1 f2 rows).2 = 0) ∧
    (∀ v, r.mb_id = some v →
      (nth (runArtistMain f1 f2 rows).1 i).map ArtistRow.mb_id =
        some (some v)) ∧
    (∀ v, r.genius_url = some v →
      (nth (runArtistMain f1 f2 rows).1 i).map ArtistRow.genius_url =
        some (some v)) := by
  simp only [runArtistMain, stage1Run, stage2Run]
  refine ⟨?_, ?_, ?_, ?_⟩
  · rw [countList_append, stage1Go_count_mbQuery, stage2Go_count_mbQuery]
    by_cases hmb : r.mb_id = none
    · rw [if_pos hmb]
      have hmem : i ∈ stage1Worklist rows :=
        (mem_stage1Worklist rows i).mpr ⟨r, hr, hmb⟩
      rw [countList_eq_one_of_nodup_mem (nodup_stage1Worklist rows) hmem]
    · rw [if_neg hmb]
      have hnm : i ∉ stage1Worklist rows := by
        intro hm
        obtain ⟨r', hr', hmb'⟩ := (mem_stage1Worklist rows i).mp hm
        rw [hr] at hr'
        injection hr' with heq
        subst heq
        exact hmb hmb'
      rw [countList_eq_zero_of_not_mem hnm]
  · intro hgu
    rw [countList_append, stage1Go_count_detailQuery,
      stage2Go_count_detailQuery]
    have hnm : i ∉ stage2Worklist (stage1Go f1 (stage1Worklist rows) rows).1 := by
      intro hm
      obtain ⟨r1, hr1, hgu1, _⟩ := (mem_stage2Worklist _ i).mp hm
      have hpres := stage1Go_genius_url f1 (stage1Worklist rows) rows i
      rw [hr1, hr] at hpres
      simp only [Option.map_some'] at hpres
      injection hpres with heq
      exact hgu (heq ▸ hgu1)
    rw [countList_eq_zero_of_not_mem hnm]
  · intro v hv
    have hnm1 : i ∉ stage1Worklist rows := by
      intro hm
      obtain ⟨r', hr', hmb'⟩ := (mem_stage1Worklist rows i).mp hm
      rw [hr] at hr'
      injection hr' with heq
      subst heq
      rw [hv] at hmb'
      exact Option.noConfusion hmb'
    have hs1 : nth (stage1Go f1 (stage1Worklist rows) rows).1 i = some r := by
      rw [stage1Go_nth_of_not_mem _ _ _ _ hnm1, hr]
    rw [stage2Go_mb_id, hs1]
    simp [hv]
  · intro v hv
    have hg1 : (nth (stage1Go f1 (stage1Worklist rows) rows).1 i).map
        ArtistRow.genius_url = some (some v) := by
      rw [stage1Go_genius_url, hr]
      simp [hv]
    cases hnth : nth (stage1Go f1 (stage1Worklist rows) rows).1 i with
    | none => rw [hnth] at hg1; exact Option.noConfusion hg1
    | some r1 =>
      rw [hnth] at hg1
      simp only [Option.map_some'] at hg1
      injection hg1 with hg1'
      have hnm2 : i ∉ stage2Worklist (stage1Go f1 (stage1Worklist rows) rows).1 := by
        intro hm
        obtain ⟨r1', hr1', hgu1, _⟩ := (mem_stage2Worklist _ i).mp hm
        rw [hnth] at hr1'
        injection hr1' with heq
        subst heq
        rw [hgu1] at hg1'
        exact Option.noConfusion hg1'
      rw [stage2Go_nth_of_not_mem _ _ _ _ hnm2, hnth]
      simp [hg1']

/-- C3 witness pending row. -/
def c3wRow0 : ArtistRow :=
  ⟨"a", none, none, none, none, none, none, none, none, none, none, none⟩

/-- C3 witness completed row: both markers set. -/
def c3wRow1 : ArtistRow :=
  ⟨"b", none, none, none, none, none, none, none, some "m", none, none,
    some "g"⟩

/-- C3 witness snapshot. -/
def c3wRows : List ArtistRow := [c3wRow0, c3wRow1]

/-- C3 witness: the amended claim evaluated at the completed row of a
concrete two-row snapshot. -/
theorem monotonic_completion_witness :
    countList (.mbQuery 1) (runArtistMain witFetchEmpty c3cexF2 c3wRows).2 =
      (if c3wRow1.mb_id = none then 1 else 0) :=
  (monotonic_completion witFetchEmpty c3cexF2 c3wRows 1 c3wRow1 (by decide)).1

/-! ### Claim C10: bounded random coverage of the Genius search stage -/

/-- C10: modeling `sample(400)` by an arbitrary 400-element duplicate-free
index list, the search loop iterates over exactly the sampled indices
filtered to pending rows, hence processes at most 400 rows; whenever more
than 400 songs are pending, some pending song is left unprocessed by the
run. -/
theorem genius_bounded_random_coverage (sampled : List Nat) (rows : List GRow)
    (hnd : sampled.Nodup) (hlen : sampled.length = 400) :
    (geniusWorklist sampled rows).length ≤ 400 ∧
      geniusWorklist sampled rows ⊆ sampled ∧
      (400 < (geniusPendingAll rows).length →
        ∃ i, i ∈ geniusPendingAll rows ∧ i ∉ geniusWorklist sampled rows) := by
  have hwl : (geniusWorklist sampled rows).length ≤ 400 :=
    le_trans (List.length_filter_le _ _) (le_of_eq hlen)
  refine ⟨hwl, List.filter_subset' _, ?_⟩
  intro hgt
  by_contra hall
  push_neg at hall
  have hsub : geniusPendingAll rows ⊆ geniusWorklist sampled rows :=
    fun i hi => hall i hi
  have hnd2 : (geniusPendingAll rows).Nodup := (List.nodup_range _).filter _
  have hle := (List.subperm_of_subset hnd2 hsub).length_le
  omega

theorem nth_replicate (a : α) : ∀ n i, i < n → nth (List.replicate n a) i = some a := by
  intro n
  induction n with
  | zero => intro i hi; omega
  | succ m ih =>
    intro i hi
    cases i with
    | zero => rfl
    | succ k => exact ih k (by omega)

/-- An all-pending replicated songs snapshot has every index pending. -/
theorem geniusPendingAll_replicate (n : Nat) (r : GRow)
    (hg : r.genius_url = none) :
    geniusPendingAll (List.replicate n r) = List.range n := by
  rw [geniusPendingAll, List.length_replicate]
  apply List.filter_eq_self.mpr
  intro i hi
  rw [nth_replicate r n i (List.mem_range.mp hi)]
  simp [hg]

/-- A concrete pending song row. -/
def witGRow : GRow := ⟨"a", "s", none, none, none, none⟩

/-- The concrete 400-element sample of the C10 witness. -/
def witSampled : List Nat := List.range 400

/-- A concrete 401-row all-pending songs snapshot. -/
def witGRows : List GRow := List.replicate 401 witGRow

/-- C10 witness: on a 401-row all-pending snapshot with a concrete
400-element sample, some pending song is left out of the run. -/
theorem genius_bounded_random_coverage_witness :
    witSampled.Nodup ∧ witSampled.length = 400 ∧
      ∃ i, i ∈ geniusPendingAll witGRows ∧
        i ∉ geniusWorklist witSampled witGRows := by
  refine ⟨List.nodup_range 400, by simp [witSampled], ?_⟩
  apply (genius_bounded_random_coverage witSampled witGRows
    (List.nodup_range 400) (by simp [witSampled])).2.2
  rw [show witGRows = List.replicate 401 witGRow from rfl,
    geniusPendingAll_replicate 401 witGRow rfl]
  simp

end Music
